import Mathlib

/-!
Verification of the workspace provisioning core (dojo plugin docker API,
workspace job proxy) against its specification.  The Python source is
shallowly embedded: bytes are `Nat`s below 256, strings of the modelled
values are ASCII so `Char.toNat` is their UTF-8 byte; machine words carry
an explicit `% 2^32`.
-/

namespace Dojo

/-- 32-bit truncation. -/
def w32 (n : Nat) : Nat := n % 4294967296

/-- Right rotation of a 32-bit word. -/
def rotr (n x : Nat) : Nat := w32 ((x >>> n) + ((x <<< (32 - n)) % 4294967296))

/-- Logical right shift (already within 32 bits for our inputs). -/
def shr (n x : Nat) : Nat := x >>> n

/-- Bytes of an ASCII string (for the modelled values every char is ASCII,
so `Char.toNat` is the UTF-8 byte). -/
def strBytes (s : String) : List Nat := s.toList.map Char.toNat

/-- The 64 SHA-256 round constants (FIPS 180-4, fractional parts of the cube
roots of the first 64 primes), in decimal. -/
def shaK : List Nat :=
  [1116352408, 1899447441, 3049323471, 3921009573, 961987163,
   1508970993, 2453635748, 2870763221, 3624381080, 310598401,
   607225278, 1426881987, 1925078388, 2162078206, 2614888103,
   3248222580, 3835390401, 4022224774, 264347078, 604807628,
   770255983, 1249150122, 1555081692, 1996064986, 2554220882,
   2821834349, 2952996808, 3210313671, 3336571891, 3584528711,
   113926993, 338241895, 666307205, 773529912, 1294757372,
   1396182291, 1695183700, 1986661051, 2177026350, 2456956037,
   2730485921, 2820302411, 3259730800, 3345764771, 3516065817,
   3600352804, 4094571909, 275423344, 430227734, 506948616,
   659060556, 883997877, 958139571, 1322822218, 1537002063,
   1747873779, 1955562222, 2024104815, 2227730452, 2361852424,
   2428436474, 2756734187, 3204031479, 3329325298]

/-- The 8 SHA-256 initial hash words (fractional parts of the square roots
of the first 8 primes), in decimal. -/
def shaH0 : List Nat :=
  [1779033703, 3144134277, 1013904242, 2773480762, 1359893119,
   2600822924, 528734635, 1541459225]

/-- Big-endian bytes of `n`, `k` bytes wide. -/
def beBytes (k n : Nat) : List Nat :=
  match k with
  | 0 => []
  | k + 1 => beBytes k (n / 256) ++ [n % 256]

/-- SHA-256 message padding: `0x80`, zeros, then the bit length as 8 big-endian bytes. -/
def shaPad (msg : List Nat) : List Nat :=
  let l := msg.length
  let padLen := (55 + 64 - l % 64) % 64 + 1
  msg ++ [0x80] ++ List.replicate (padLen - 1) 0 ++ beBytes 8 (8 * l)

/-- Split into chunks of `n`, with structural fuel (one unit per chunk
suffices when `n ≥ 1`; after `shaPad` every chunk has exactly 64 bytes). -/
def chunksAux (n : Nat) : Nat → List Nat → List (List Nat)
  | 0, _ => []
  | _, [] => []
  | fuel + 1, a :: l => (a :: l).take n :: chunksAux n fuel ((a :: l).drop n)

/-- Split into chunks of `n`. -/
def chunks (n : Nat) (l : List Nat) : List (List Nat) := chunksAux n l.length l

/-- Big-endian 32-bit words from bytes, 4 at a time. -/
def bytesToWordsBE : List Nat → List Nat
  | b0 :: b1 :: b2 :: b3 :: rest =>
    (((b0 * 256 + b1) * 256 + b2) * 256 + b3) :: bytesToWordsBE rest
  | _ => []

/-- One extension step of the SHA-256 message schedule: append word `w[t]`
computed from the last 16 words. -/
def schedStep (l : List Nat) : List Nat :=
  let k := l.length
  let g := fun i => l.getD i 0
  let s0 := w32 (rotr 7 (g (k - 15)) ^^^ rotr 18 (g (k - 15)) ^^^ shr 3 (g (k - 15)))
  let s1 := w32 (rotr 17 (g (k - 2)) ^^^ rotr 19 (g (k - 2)) ^^^ shr 10 (g (k - 2)))
  l ++ [w32 (g (k - 16) + s0 + g (k - 7) + s1)]

/-- The full 64-word message schedule from the block's 16 words. -/
def sched (ws : List Nat) : List Nat := Nat.iterate schedStep 48 ws

/-- Working state of the SHA-256 compression function. -/
structure H8 where
  a : Nat
  b : Nat
  c : Nat
  d : Nat
  e : Nat
  f : Nat
  g : Nat
  h : Nat
deriving Repr, DecidableEq

/-- One SHA-256 compression round. -/
def compressStep (st : H8) (kw : Nat × Nat) : H8 :=
  let S1 := w32 (rotr 6 st.e ^^^ rotr 11 st.e ^^^ rotr 25 st.e)
  let ch := w32 ((st.e &&& st.f) ^^^ ((st.e ^^^ 4294967295) &&& st.g))
  let temp1 := w32 (st.h + S1 + ch + kw.1 + kw.2)
  let S0 := w32 (rotr 2 st.a ^^^ rotr 13 st.a ^^^ rotr 22 st.a)
  let maj := w32 ((st.a &&& st.b) ^^^ (st.a &&& st.c) ^^^ (st.b &&& st.c))
  let temp2 := w32 (S0 + maj)
  ⟨w32 (temp1 + temp2), st.a, st.b, st.c, w32 (st.d + temp1), st.e, st.f, st.g⟩

/-- Compress one 64-byte block into the running hash value. -/
def compressBlock (hv : List Nat) (block : List Nat) : List Nat :=
  let ws := sched (bytesToWordsBE block)
  let g := fun i => hv.getD i 0
  let st0 : H8 := ⟨g 0, g 1, g 2, g 3, g 4, g 5, g 6, g 7⟩
  let st := (shaK.zip ws).foldl compressStep st0
  [w32 (g 0 + st.a), w32 (g 1 + st.b), w32 (g 2 + st.c), w32 (g 3 + st.d),
   w32 (g 4 + st.e), w32 (g 5 + st.f), w32 (g 6 + st.g), w32 (g 7 + st.h)]

/-- SHA-256 of a byte list, as 32 digest bytes. -/
def sha256 (msg : List Nat) : List Nat :=
  let final := (chunks 64 (shaPad msg)).foldl compressBlock shaH0
  final.flatMap (beBytes 4)

/-- HMAC-SHA256 (RFC 2104, block size 64), as Python's `hmac.new(key, msg,
hashlib.sha256).digest()` computes it. -/
def hmacSha256 (key msg : List Nat) : List Nat :=
  let k0 := if 64 < key.length then sha256 key else key
  let kp := k0 ++ List.replicate (64 - k0.length) 0
  let ipadded := kp.map (fun b => b ^^^ 0x36)
  let opadded := kp.map (fun b => b ^^^ 0x5c)
  sha256 (opadded ++ sha256 (ipadded ++ msg))

/-- The urlsafe base64 alphabet (`-` and `_` instead of `+` and `/`). -/
def b64urlAlphabet : List Char :=
  "ABCDEFGHIJKLMNOPQRSTUVWXYZabcdefghijklmnopqrstuvwxyz0123456789-_".toList

/-- Character for a 6-bit value. -/
def b64Char (n : Nat) : Char := b64urlAlphabet.getD n 'A'

/-- Urlsafe base64 encoding with `=` padding, as
`base64.urlsafe_b64encode(bytes).decode()`. -/
def b64urlEncode : List Nat → List Char
  | [] => []
  | [b1] => [b64Char (b1 / 4), b64Char (b1 % 4 * 16), '=', '=']
  | [b1, b2] => [b64Char (b1 / 4), b64Char (b1 % 4 * 16 + b2 / 16), b64Char (b2 % 16 * 4), '=']
  | b1 :: b2 :: b3 :: rest =>
    b64Char (b1 / 4) :: b64Char (b1 % 4 * 16 + b2 / 16) ::
      b64Char (b2 % 16 * 4 + b3 / 64) :: b64Char (b3 % 64) :: b64urlEncode rest

/-!
## Job records and the job store

`docker.py` keeps each job as a JSON object in redis under key
`JOB_REDIS_PREFIX ++ job_id`.  The fields the verified claims touch are
modelled; `Option` marks a field that may be absent or JSON `null` (the
proxy reads every field with `dict.get`).  Timestamps are modelled by
presence only (`finished_at : Bool`).
-/

/-- The job record (the JSON object stored under the job key). -/
structure JobRec where
  token : Option String
  state : Option String
  workspace_url : Option String
  error : Option String
  challenge_name : Option String
  dojo_name : Option String
  practice : Bool
  finished_at : Bool
deriving Repr, DecidableEq

/-- The update dictionaries `_run_challenge_job` passes to `_update_job`:
every one carries `state`; `workspace_url` / `error` / `finished_at` are
present only in some of them (`none` / `false` = key absent). -/
structure Upd where
  state : String
  workspace_url : Option String
  error : Option String
  finished_at : Bool
deriving Repr, DecidableEq

/-- Python `job.update(updates)`: keys present in the update dict overwrite,
absent keys leave the record alone. -/
def applyUpd (u : Upd) (j : JobRec) : JobRec :=
  ⟨j.token, some u.state,
   (match u.workspace_url with | none => j.workspace_url | some v => some v),
   (match u.error with | none => j.error | some v => some v),
   j.challenge_name, j.dojo_name, j.practice, j.finished_at || u.finished_at⟩

/-- The job store: redis modelled as an association list from job id to
record (TTL eviction appears as absence of the key). -/
def Store := List (String × JobRec)

/-- `_load_job`: fetch and deserialize, `none` when absent/expired. -/
def load_job (st : Store) (jobId : String) : Option JobRec :=
  (st.find? (fun p => p.1 = jobId)).map (fun p => p.2)

/-- `_save_job`: serialize and write the record under its key. -/
def save_job (st : Store) (jobId : String) (j : JobRec) : Store :=
  (jobId, j) :: st.filter (fun p => ¬ p.1 = jobId)

/-- `_update_job`: read-modify-write; returns `none` and writes nothing when
the job is absent.  Result is (returned job, resulting store). -/
def update_job (st : Store) (jobId : String) (u : Upd) : Option JobRec × Store :=
  match load_job st jobId with
  | none => (none, st)
  | some j =>
    let j2 := applyUpd u j
    (some j2, save_job st jobId j2)

/-- `_initialize_job`: the freshly created record (`state = "pending"`,
no workspace url, no error). -/
def initialize_job (token challengeName dojoName : String) (practice : Bool) : JobRec :=
  ⟨some token, some "pending", none, none, some challengeName, some dojoName, practice, false⟩

/-!
## Handoff signer (`_workspace_redirect`)
-/

/-- Result of `_workspace_redirect`: either the `RuntimeError` it raises, or
the arguments it hands to `forward_port` (the reverse-proxy shim). -/
inductive RedirectResult where
  | err (msg : String)
  | fwd (port : String) (signature : String) (message : String)
deriving Repr, DecidableEq

/-- `_workspace_redirect`, embedded.  `secret` is `WORKSPACE_SECRET`
(`none` = unset; Python's `if not WORKSPACE_SECRET` also fires on the empty
string); `node` is `user_node(user)` (`none` = null). -/
def workspace_redirect (secret : Option String) (containerId : String)
    (node : Option Int) (port : String) : RedirectResult :=
  match secret with
  | none => .err "WORKSPACE_SECRET is not configured"
  | some s =>
    if s = "" then .err "WORKSPACE_SECRET is not configured"
    else
      let cid := (containerId.toList.take 12).asString
      let message :=
        match node with
        | none => cid
        | some n => if n = 0 then cid else cid ++ ":192.168.42." ++ toString (n + 1)
      let digest := hmacSha256 (strBytes s) (strBytes message)
      let signature := (b64urlEncode digest).asString
      .fwd port signature message

/-!
## Option selection in `insert_challenge`
-/

/-- The deterministic option-directory choice of `insert_challenge` when at
least one option directory exists: index the sorted option paths by the
little-endian value of the first 8 bytes of
`SHA-256(f"{secret}_{as_user_id}_{challenge_id}")`, mod the count. -/
def leNatOfBytes (l : List Nat) : Nat := l.foldr (fun b acc => b + 256 * acc) 0

/-- The hash `insert_challenge` derives the option index from. -/
def optionHash (secret : String) (asUserId challengeId : Nat) : List Nat :=
  sha256 (strBytes (secret ++ "_" ++ toString asUserId ++ "_" ++ toString challengeId))

/-- The option directory `insert_challenge` unpacks, `none` when there are no
option directories (then no option step happens at all). -/
def selectOption (secret : String) (asUserId challengeId : Nat)
    (optionPaths : List String) : Option String :=
  if optionPaths.isEmpty then none
  else
    optionPaths.get? (leNatOfBytes ((optionHash secret asUserId challengeId).take 8) %
      optionPaths.length)

/-!
## Hostname construction in `start_container`
-/

/-- Python `\s` within ASCII: space, tab, newline, carriage return, vertical
tab, form feed. -/
def isPySpace (c : Char) : Bool :=
  c = ' ' ∨ c = '\t' ∨ c = '\n' ∨ c = '\r' ∨ c = '\x0b' ∨ c = '\x0c'

/-- A character matched by the collapse regex `[\s.-]+`. -/
def isSepChar (c : Char) : Bool := isPySpace c ∨ c = '.' ∨ c = '-'

/-- A character in `[a-z0-9]`. -/
def isLowerAlnum (c : Char) : Bool :=
  (97 ≤ c.toNat ∧ c.toNat ≤ 122) ∨ (48 ≤ c.toNat ∧ c.toNat ≤ 57)

/-- `re.sub(r"[^a-z0-9\s.-]", "", s)`: keep only lowercase alphanumerics,
whitespace, dot and hyphen. -/
def stripBad (l : List Char) : List Char :=
  l.filter (fun c => isLowerAlnum c || isSepChar c)

/-- `re.sub(r"[\s.-]+", "-", s)`: replace each maximal run of
whitespace/dot/hyphen by a single `-`. -/
def collapseSeps : List Char → List Char
  | [] => []
  | [c] => if isSepChar c then ['-'] else [c]
  | c :: d :: l =>
    if isSepChar c then
      if isSepChar d then collapseSeps (d :: l) else '-' :: collapseSeps (d :: l)
    else c :: collapseSeps (d :: l)

/-- The normalized challenge name: `dojo_challenge.name.lower()`, strip,
collapse.  (`Char.toLower` models `str.lower` — exact on ASCII; a non-ASCII
character is stripped either way.) -/
def normalizeName (l : List Char) : List Char :=
  collapseSeps (stripBad (l.map Char.toLower))

/-- Python `"~".join(pieces)`. -/
def joinTilde : List (List Char) → List Char
  | [] => []
  | [p] => p
  | p :: q :: r => p ++ '~' :: joinTilde (q :: r)

/-- The container hostname of `start_container`:
`"~".join((["practice"] if practice else []) + [module_id, normalized])[:64]`. -/
def hostnameChars (practice : Bool) (moduleId name : List Char) : List Char :=
  (joinTilde
    ((if practice then ["practice".toList] else []) ++
      [moduleId, normalizeName name])).take 64

/-!
## Flag selection in `start_challenge` / `insert_flag`
-/

/-- The flag `start_challenge` chooses after `as_user = as_user or user`:
practice beats impersonation beats the serialized per-user flag.
`serialize` abstracts the external `serialize_user_flag`. -/
def chooseFlag (practice : Bool) (userId : Nat) (asUser : Option Nat)
    (challengeId : Nat) (serialize : Nat → Nat → String) : String :=
  let effective := asUser.getD userId
  if practice then "practice"
  else if effective ≠ userId then "support_flag"
  else serialize effective challengeId

/-- The single line `insert_flag` writes to the container's stdin:
`"pwn.college{" + flag + "}"` followed by a newline (both the local socket
branch and the websocket branch send exactly this). -/
def insert_flag_line (flag : String) : String :=
  "pwn.college\x7b" ++ flag ++ "\x7d\n"

/-!
## The job proxy (`job_proxy.py`)

`handle_workspace_job` is embedded as a pure function of the result of the
store read (`Except` models the `except Exception` around `_load_job`), the
path token and the configured `WORKSPACE_JOB_REFRESH`.  The static CSS of
the two HTML pages is elided; the structural parts the spec talks about
(meta refresh, message, error detail) are kept verbatim.
-/

/-- An HTTP response of the job proxy. -/
inductive ProxyResp where
  | httpError (status : Nat) (detail : String)
  | redirect (status : Nat) (url : String) (cacheControl : String)
  | html (status : Nat) (body : String) (cacheControl : String)
deriving Repr, DecidableEq

/-- The `Preparing <challenge> (<dojo>)[ in practice mode]` message of the
holding page (`or`-defaults as in `_wait_markup`). -/
def waitMessage (job : JobRec) : String :=
  let challenge := match job.challenge_name with
    | some c => if c = "" then "workspace" else c
    | none => "workspace"
  let dojo := match job.dojo_name with
    | some d => if d = "" then "dojo" else d
    | none => "dojo"
  "Preparing " ++ challenge ++ " (" ++ dojo ++ ")" ++
    (if job.practice then " in practice mode" else "")

/-- The holding page before its refresh meta tag. -/
def waitHead : String :=
  "<!doctype html>\n<html lang=\"en\">\n<head>\n    <meta charset=\"utf-8\">\n    "

/-- The refresh meta tag of the holding page. -/
def refreshTag (refreshSeconds : Int) : String :=
  "<meta http-equiv=\"refresh\" content=\"" ++ toString (max refreshSeconds 1) ++ "\">"

/-- The holding page after its refresh meta tag. -/
def waitTail (job : JobRec) : String :=
  "\n    <title>Preparing workspace…</title>\n</head>\n<body>\n" ++
  "    <h1>Hang tight…</h1>\n    <p>" ++ waitMessage job ++
  ". This page refreshes automatically.</p>\n</body>\n</html>"

/-- `_wait_markup`: the holding page.  `refreshSeconds` is the parsed
`WORKSPACE_JOB_REFRESH` environment value. -/
def wait_markup (job : JobRec) (refreshSeconds : Int) : String :=
  waitHead ++ refreshTag refreshSeconds ++ waitTail job

/-- The failure page before its detail paragraph. -/
def errHead : String :=
  "<!doctype html>\n<html lang=\"en\">\n<head>\n    <meta charset=\"utf-8\">\n" ++
  "    <title>Workspace failed to start</title>\n</head>\n<body>\n" ++
  "    <h1>Workspace failed to start</h1>\n    <p>"

/-- The failure page after its detail paragraph. -/
def errTail : String :=
  "</p>\n    <p>Please restart the challenge.</p>\n</body>\n</html>"

/-- The detail of the failure page: `job.get("error") or "Workspace failed
to initialize."`. -/
def errDetail (job : JobRec) : String :=
  match job.error with
  | some e => if e = "" then "Workspace failed to initialize." else e
  | none => "Workspace failed to initialize."

/-- `_error_markup`: the failure page. -/
def error_markup (job : JobRec) : String :=
  errHead ++ errDetail job ++ errTail

/-- Python truthiness of an optional string (`None` and `""` are falsy). -/
def truthy : Option String → Bool
  | none => false
  | some s => ¬ s = ""

/-- `handle_workspace_job` on route `GET /workspace/job/{job_id}/{token}`.
`loaded` is the outcome of `await _load_job(job_id)` (`.error` = the read
raised). -/
def handle_workspace_job (loaded : Except Unit (Option JobRec)) (token : String)
    (refreshSeconds : Int) : ProxyResp :=
  match loaded with
  | .error _ => .httpError 503 "Unable to query workspace job"
  | .ok jobOpt =>
    match jobOpt with
    | none => .httpError 404 "Unknown workspace job"
    | some job =>
      if job.token ≠ some token then .httpError 404 "Unknown workspace job"
      else
        let state := job.state.getD "pending"
        if state = "ready" ∧ truthy job.workspace_url then
          .redirect 302 (job.workspace_url.getD "") "no-store"
        else if state = "error" then
          .html 502 (error_markup job) "no-store"
        else
          .html 200 (wait_markup job refreshSeconds) "no-store"

/-!
## The orchestrator worker (`_run_challenge_job`)

The worker is embedded as the trace of observable actions it performs,
driven by an environment fixing the outcome of each provisioning attempt.
A single attempt either raises somewhere before the `ready` write
(teardown / `start_challenge` / `_workspace_redirect`), or reaches the
`ready` write with a workspace url — after which `publish_container_start`
(reached only for official/public dojos) may still raise inside the same
`try`, sending control to the `except` of the retry loop.
-/

/-- Outcome of one iteration of the retry loop. -/
inductive AttemptOutcome where
  | raise
  | ok (url : String) (publishRaises : Bool)
deriving Repr, DecidableEq

/-- Environment a worker run is driven by. -/
structure WorkerEnv where
  jobPresent : Bool
  validRefs : Bool
  publishNeeded : Bool
  outcome : Nat → AttemptOutcome

/-- An observable action of the worker: a `_update_job` call, an attempt
start (`start_challenge` invocation), a `time.sleep`, or a
`publish_container_start` call. -/
inductive Act where
  | update (u : Upd)
  | attempt (i : Nat)
  | sleepSec (n : Nat)
  | publish
deriving Repr, DecidableEq

/-- The update dict `{state: "running"}`. -/
def runningUpd : Upd := ⟨"running", none, none, false⟩

/-- The update dict written when user/challenge records are gone. -/
def invalidUpd : Upd := ⟨"error", none, some "Workspace request is no longer valid.", true⟩

/-- The update dict written on success. -/
def readyUpd (url : String) : Upd := ⟨"ready", some url, none, true⟩

/-- The update dict written after retry exhaustion. -/
def exhaustedUpd : Upd := ⟨"error", none, some "Workspace failed to start. Please retry.", true⟩

/-- The retry loop of `_run_challenge_job`: attempt `i`, with `rem` attempts
remaining including this one (`rem = 0` is the fall-through past the loop:
the exhaustion `error` write).  `attempt < max_attempts` is `rem > 1`. -/
def loopActs (env : WorkerEnv) : Nat → Nat → List Act
  | _, 0 => [.update exhaustedUpd]
  | i, rem + 1 =>
    .attempt i ::
      match env.outcome i with
      | .raise =>
        (if 0 < rem then [Act.sleepSec 2] else []) ++ loopActs env (i + 1) rem
      | .ok url publishRaises =>
        .update (readyUpd url) ::
          if env.publishNeeded then
            .publish ::
              (if publishRaises then
                (if 0 < rem then [Act.sleepSec 2] else []) ++ loopActs env (i + 1) rem
              else [])
          else []

/-- The full action trace of `_run_challenge_job`. -/
def workerActs (env : WorkerEnv) : List Act :=
  if ¬ env.jobPresent then []
  else
    .update runningUpd ::
      (if ¬ env.validRefs then [.update invalidUpd] else loopActs env 1 3)

/-- The update dicts among a list of actions, in order. -/
def updsOf (acts : List Act) : List Upd :=
  acts.filterMap (fun a => match a with
    | .update u => some u
    | _ => none)

/-- The `state` fields of the updates among a list of actions, in order. -/
def statesOf (acts : List Act) : List String :=
  (updsOf acts).map (fun u => u.state)

/-- The job-store states written by a worker run (the `state` field of each
`_update_job` call, in order). -/
def writtenStates (env : WorkerEnv) : List String :=
  statesOf (workerActs env)

/-- The update dicts written by a worker run, in order. -/
def writtenUpds (env : WorkerEnv) : List Upd :=
  updsOf (workerActs env)

/-- No post-success publication failure occurs in this environment. -/
def noPublishFailure (env : WorkerEnv) : Prop :=
  ∀ i url pr, env.outcome i = .ok url pr → (env.publishNeeded && pr) = false

/-!
## Theorems
-/

/-- C10: for a job id with no record in the store, `_update_job` returns none
and performs no write: the store is unchanged (so a worker state write issued
after TTL expiry does nothing) and the id remains absent. -/
theorem update_job_absent_no_write (st : Store) (jobId : String) (u : Upd)
    (h : load_job st jobId = none) :
    update_job st jobId u = (none, st) ∧
    load_job (update_job st jobId u).2 jobId = none := by
  unfold update_job
  rw [h]
  exact ⟨rfl, h⟩

/-- Witness for C10: updating a job id absent from a concrete store is a
no-op for every worker write, here the `ready` one. -/
theorem update_job_absent_no_write_witness :
    update_job [("other", initialize_job "t" "c" "d" false)] "gone" (readyUpd "https://x/") =
      (none, [("other", initialize_job "t" "c" "d" false)]) ∧
    load_job (update_job [("other", initialize_job "t" "c" "d" false)] "gone" (readyUpd "https://x/")).2 "gone" = none :=
  update_job_absent_no_write _ _ _ (by decide)

/-- C8: the stdin line is exactly `pwn.college{<flag>}\n` with flag
`"practice"` in practice mode (whatever the impersonation), `"support_flag"`
when impersonating off practice, else `serialize_user_flag(as_user_id,
challenge_id)`; practice takes precedence over impersonation. -/
theorem insert_flag_line_spec (userId challengeId : Nat) (asUser : Option Nat)
    (serialize : Nat → Nat → String) :
    insert_flag_line (chooseFlag true userId asUser challengeId serialize) =
      "pwn.college\x7bpractice\x7d\n" ∧
    (∀ a, asUser = some a → a ≠ userId →
      insert_flag_line (chooseFlag false userId asUser challengeId serialize) =
        "pwn.college\x7bsupport_flag\x7d\n") ∧
    (asUser = none ∨ asUser = some userId →
      insert_flag_line (chooseFlag false userId asUser challengeId serialize) =
        "pwn.college\x7b" ++ serialize userId challengeId ++ "\x7d\n") := by
  refine ⟨rfl, ?_, ?_⟩
  · intro a ha hne
    simp [chooseFlag, ha, hne, insert_flag_line]
  · rintro (ha | ha) <;> simp [chooseFlag, ha, insert_flag_line]

/-- Witness for C8: concrete flags for practice, impersonation and the plain
case. -/
theorem insert_flag_line_spec_witness :
    insert_flag_line (chooseFlag true 7 (some 9) 3 (fun u c => toString u ++ "." ++ toString c)) =
      "pwn.college\x7bpractice\x7d\n" ∧
    insert_flag_line (chooseFlag false 7 (some 9) 3 (fun u c => toString u ++ "." ++ toString c)) =
      "pwn.college\x7bsupport_flag\x7d\n" ∧
    insert_flag_line (chooseFlag false 7 none 3 (fun u c => toString u ++ "." ++ toString c)) =
      "pwn.college\x7b7.3\x7d\n" := by
  refine ⟨(insert_flag_line_spec 7 3 (some 9) _).1,
    (insert_flag_line_spec 7 3 (some 9) _).2.1 9 rfl (by decide), ?_⟩
  have h := (insert_flag_line_spec 7 3 none (fun u c => toString u ++ "." ++ toString c)).2.2
    (Or.inl rfl)
  simpa using h

/-- C9: a job in state `ready` whose `workspace_url` is absent, null or empty
gets the 200 holding page from the proxy (not a redirect and not an error),
and a record with no `state` field at all is treated as pending and gets the
200 holding page. -/
theorem handle_workspace_job_ready_without_url (job : JobRec) (token : String) (r : Int)
    (htok : job.token = some token)
    (h : (job.state = some "ready" ∧
            (job.workspace_url = none ∨ job.workspace_url = some "")) ∨
          job.state = none) :
    handle_workspace_job (.ok (some job)) token r = .html 200 (wait_markup job r) "no-store" := by
  unfold handle_workspace_job
  rcases h with ⟨hs, hu⟩ | hs
  · rcases hu with hu | hu <;> simp [htok, hs, hu, truthy]
  · simp [htok, hs]

/-- Witness for C9: a concrete `ready` record with an empty url, and a
concrete record with no state, both get the holding page. -/
theorem handle_workspace_job_ready_without_url_witness :
    handle_workspace_job (.ok (some ⟨some "t", some "ready", some "", none, none, none, false, true⟩)) "t" 3 =
      .html 200 (wait_markup ⟨some "t", some "ready", some "", none, none, none, false, true⟩ 3) "no-store" ∧
    handle_workspace_job (.ok (some ⟨some "t", none, none, none, none, none, false, false⟩)) "t" 3 =
      .html 200 (wait_markup ⟨some "t", none, none, none, none, none, false, false⟩ 3) "no-store" :=
  ⟨handle_workspace_job_ready_without_url _ _ _ rfl (Or.inl ⟨rfl, Or.inr rfl⟩),
   handle_workspace_job_ready_without_url _ _ _ rfl (Or.inr rfl)⟩

/-- C4: the proxy's dispatch on `GET /workspace/job/{id}/{token}`: absent
record or token mismatch is 404; a raising store read is 503; `ready` with a
(non-empty) `workspace_url` is a 302 redirect to that url with
`Cache-Control: no-store`; `error` is a 502 HTML page whose body contains the
job's error text; anything else is a 200 HTML holding page with
`Cache-Control: no-store` and meta refresh interval `max(refresh, 1)`. -/
theorem handle_workspace_job_spec (job : JobRec) (token : String) (r : Int) :
    (∀ e, handle_workspace_job (.error e) token r =
      .httpError 503 "Unable to query workspace job") ∧
    (handle_workspace_job (.ok none) token r = .httpError 404 "Unknown workspace job") ∧
    (job.token ≠ some token →
      handle_workspace_job (.ok (some job)) token r = .httpError 404 "Unknown workspace job") ∧
    (∀ u, job.token = some token → job.state = some "ready" →
      job.workspace_url = some u → u ≠ "" →
      handle_workspace_job (.ok (some job)) token r = .redirect 302 u "no-store") ∧
    (job.token = some token → job.state = some "error" →
      handle_workspace_job (.ok (some job)) token r =
        .html 502 (error_markup job) "no-store" ∧
      ∀ e, job.error = some e → e ≠ "" → ∃ pre post, error_markup job = pre ++ e ++ post) ∧
    (job.token = some token →
      ¬ (job.state.getD "pending" = "ready" ∧ truthy job.workspace_url = true) →
      job.state.getD "pending" ≠ "error" →
      handle_workspace_job (.ok (some job)) token r =
        .html 200 (wait_markup job r) "no-store" ∧
      ∃ pre post,
        wait_markup job r =
          pre ++ ("<meta http-equiv=\"refresh\" content=\"" ++ toString (max r 1) ++ "\">") ++ post) := by
  refine ⟨fun e => rfl, rfl, ?_, ?_, ?_, ?_⟩
  · intro hne
    simp [handle_workspace_job, hne]
  · intro u htok hs hu hne
    simp [handle_workspace_job, htok, hs, hu, truthy, hne]
  · intro htok hs
    constructor
    · simp [handle_workspace_job, htok, hs]
    · intro e he hne
      refine ⟨errHead, errTail, ?_⟩
      unfold error_markup errDetail
      rw [he]
      simp [hne]
  · intro htok hcond herr
    constructor
    · unfold handle_workspace_job
      simp only [htok]
      rw [if_neg (by simp), if_neg (by simpa using hcond), if_neg herr]
    · exact ⟨waitHead, waitTail job, rfl⟩

/-- Witness for C4: the dispatch at concrete inputs — a ready job with a url
redirects, an error job gets the 502 page, a pending job gets the holding
page. -/
theorem handle_workspace_job_spec_witness :
    handle_workspace_job (.ok (some ⟨some "t", some "ready", some "https://x/", none, none, none, false, true⟩)) "t" 3 =
      .redirect 302 "https://x/" "no-store" ∧
    handle_workspace_job (.ok (some ⟨some "t", some "error", none, some "E", none, none, false, true⟩)) "t" 3 =
      .html 502 (error_markup ⟨some "t", some "error", none, some "E", none, none, false, true⟩) "no-store" ∧
    handle_workspace_job (.ok (some ⟨some "t", some "pending", none, none, none, none, false, false⟩)) "t" 3 =
      .html 200 (wait_markup ⟨some "t", some "pending", none, none, none, none, false, false⟩ 3) "no-store" :=
  ⟨(handle_workspace_job_spec _ "t" 3).2.2.2.1 "https://x/" rfl rfl rfl (by decide),
   ((handle_workspace_job_spec _ "t" 3).2.2.2.2.1 rfl rfl).1,
   ((handle_workspace_job_spec _ "t" 3).2.2.2.2.2 rfl (by decide) (by decide)).1⟩

set_option maxRecDepth 100000 in
/-- SHA-256 test vector: the digest of `"abc"` (checks the embedding against
the standard). -/
theorem sha256_abc_vector :
    sha256 (strBytes "abc") =
      [0xba, 0x78, 0x16, 0xbf, 0x8f, 0x01, 0xcf, 0xea, 0x41, 0x41, 0x40, 0xde,
       0x5d, 0xae, 0x22, 0x23, 0xb0, 0x03, 0x61, 0xa3, 0x96, 0x17, 0x7a, 0x9c,
       0xb4, 0x10, 0xff, 0x61, 0xf2, 0x00, 0x15, 0xad] := by decide

/-- C3: when every provisioning attempt raises, the worker makes exactly 3
attempts, sleeps 2 s after the first and second (none after the third), and
then writes state `error` with message exactly
`"Workspace failed to start. Please retry."` and a `finished_at` timestamp. -/
theorem run_challenge_job_retry_exhaustion (env : WorkerEnv)
    (hp : env.jobPresent = true) (hv : env.validRefs = true)
    (hr : ∀ i, env.outcome i = .raise) :
    workerActs env =
      [.update runningUpd, .attempt 1, .sleepSec 2, .attempt 2, .sleepSec 2,
       .attempt 3, .update exhaustedUpd] ∧
    ((workerActs env).countP (fun a => match a with | .attempt _ => true | _ => false)) = 3 ∧
    ((workerActs env).countP (fun a => match a with | .sleepSec _ => true | _ => false)) = 2 ∧
    (writtenUpds env).getLast? =
      some ⟨"error", none, some "Workspace failed to start. Please retry.", true⟩ := by
  have htrace : workerActs env =
      [.update runningUpd, .attempt 1, .sleepSec 2, .attempt 2, .sleepSec 2,
       .attempt 3, .update exhaustedUpd] := by
    simp [workerActs, hp, hv, loopActs, hr]
  refine ⟨htrace, ?_, ?_, ?_⟩
  · rw [htrace]; decide
  · rw [htrace]; decide
  · unfold writtenUpds; rw [htrace]; decide

/-- Witness for C3: a concrete always-raising environment produces exactly
that trace. -/
theorem run_challenge_job_retry_exhaustion_witness :
    workerActs ⟨true, true, false, fun _ => .raise⟩ =
      [.update runningUpd, .attempt 1, .sleepSec 2, .attempt 2, .sleepSec 2,
       .attempt 3, .update exhaustedUpd] :=
  (run_challenge_job_retry_exhaustion ⟨true, true, false, fun _ => .raise⟩
    rfl rfl (fun _ => rfl)).1

/-- C5: `_workspace_redirect` raises when `WORKSPACE_SECRET` is unset
(failing the provisioning attempt); otherwise its message is the first 12
characters of the (hex) container id, with `":192.168.42." ++ (n + 1)`
appended when the node index `n` is neither null nor 0, and its signature is
the urlsafe base64 of HMAC-SHA256 keyed with the secret over that message. -/
theorem workspace_redirect_spec (s cid port : String) (node : Option Int) (hs : s ≠ "") :
    (∀ n, workspace_redirect none cid n port = .err "WORKSPACE_SECRET is not configured") ∧
    (node = none ∨ node = some 0 →
      workspace_redirect (some s) cid node port =
        .fwd port ((b64urlEncode (hmacSha256 (strBytes s)
            (strBytes (cid.toList.take 12).asString))).asString)
          (cid.toList.take 12).asString) ∧
    (∀ n : Int, node = some n → n ≠ 0 →
      workspace_redirect (some s) cid node port =
        .fwd port ((b64urlEncode (hmacSha256 (strBytes s)
            (strBytes ((cid.toList.take 12).asString ++ ":192.168.42." ++ toString (n + 1))))).asString)
          ((cid.toList.take 12).asString ++ ":192.168.42." ++ toString (n + 1))) := by
  refine ⟨fun n => rfl, ?_, ?_⟩
  · rintro (hn | hn) <;> subst hn <;> simp [workspace_redirect, hs]
  · intro n hn hne
    subst hn
    simp [workspace_redirect, hs, hne]

/-- Witness for C5: the signer at a concrete secret, container id and node 5
(message `abcdef012345:192.168.42.6`, as in the spec's boundary scenario). -/
theorem workspace_redirect_spec_witness :
    workspace_redirect (some "s") "abcdef0123456789" (some 5) "80" =
      .fwd "80" ((b64urlEncode (hmacSha256 (strBytes "s")
          (strBytes (("abcdef0123456789".toList.take 12).asString ++ ":192.168.42." ++ toString (5 + 1 : Int))))).asString)
        (("abcdef0123456789".toList.take 12).asString ++ ":192.168.42." ++ toString (5 + 1 : Int)) :=
  (workspace_redirect_spec "s" "abcdef0123456789" "80" (some 5) (by decide)).2.2
    5 rfl (by decide)

set_option maxRecDepth 100000 in
/-- The signer agrees with Python's
`base64.urlsafe_b64encode(hmac.new(b"s", b"abcdef012345:192.168.42.6",
hashlib.sha256).digest()).decode()`. -/
theorem workspace_redirect_vector :
    workspace_redirect (some "s") "abcdef0123456789" (some 5) "80" =
      .fwd "80" "a5N8uVcxyBU9V6TyX3IZ76HXewP_rHyX_jSo39KXoNY="
        "abcdef012345:192.168.42.6" := by decide

/-- C6: with at least one option directory, `insert_challenge` picks, from
the sorted option paths, the one at index
`little-endian-uint64(SHA-256(f"{SECRET_KEY}_{as_user_id}_{challenge_id}")[:8]) mod len`,
and some option is always picked; the choice is a pure function of
`(secret, as_user_id, challenge_id, option list)`, hence identical across
runs. -/
theorem insert_challenge_option_selection (secret : String) (u c : Nat)
    (opts : List String) (h : opts ≠ []) :
    selectOption secret u c opts =
      opts.get? (leNatOfBytes
        ((sha256 (strBytes (secret ++ "_" ++ toString u ++ "_" ++ toString c))).take 8) %
          opts.length) ∧
    (selectOption secret u c opts).isSome = true := by
  have hlen : 0 < opts.length := List.length_pos.mpr h
  have hne : opts.isEmpty = false := by
    cases opts with
    | nil => exact absurd rfl h
    | cons a l => rfl
  constructor
  · unfold selectOption
    rw [hne]
    rfl
  · unfold selectOption
    rw [hne]
    simp only [Bool.false_eq_true, if_false]
    have hlt : leNatOfBytes ((optionHash secret u c).take 8) % opts.length < opts.length :=
      Nat.mod_lt _ hlen
    rw [List.get?_eq_get hlt]
    rfl

/-- Witness for C6: the spec's boundary example `SECRET_KEY="sk"`,
`as_user_id=1`, `challenge_id=2`, four options. -/
theorem insert_challenge_option_selection_witness :
    selectOption "sk" 1 2 ["_a", "_b", "_c", "_d"] =
      ["_a", "_b", "_c", "_d"].get? (leNatOfBytes
        ((sha256 (strBytes ("sk" ++ "_" ++ toString (1 : Nat) ++ "_" ++ toString (2 : Nat)))).take 8) %
          (["_a", "_b", "_c", "_d"] : List String).length) :=
  (insert_challenge_option_selection "sk" 1 2 ["_a", "_b", "_c", "_d"] (by decide)).1

set_option maxRecDepth 100000 in
/-- `SHA-256("sk_1_2")[:8]` is `[29, 133, 154, 248, 72, 154, 225, 67]`
little-endian `4818168851518555421 ≡ 1 (mod 4)`, so the spec's boundary
example picks `"_b"` — concretely, and on every run. -/
theorem selectOption_example :
    selectOption "sk" 1 2 ["_a", "_b", "_c", "_d"] = some "_b" := by decide

/-- Helper: the states written by the retry loop are a single terminal write,
`["error"]` or `["ready"]`, as long as no publication failure occurs. -/
theorem loopActs_states (env : WorkerEnv) (h : noPublishFailure env) :
    ∀ rem i, statesOf (loopActs env i rem) = ["error"] ∨
      statesOf (loopActs env i rem) = ["ready"] := by
  intro rem
  induction rem with
  | zero => intro i; left; rfl
  | succ rem ih =>
    intro i
    cases ho : env.outcome i with
    | raise =>
      have hstep : statesOf (loopActs env i (rem + 1)) = statesOf (loopActs env (i + 1) rem) := by
        by_cases hrem : 0 < rem <;>
          simp [loopActs, ho, hrem, statesOf, updsOf, List.filterMap_append, List.filterMap_cons]
      rw [hstep]
      exact ih (i + 1)
    | ok url pr =>
      have hpr : (env.publishNeeded && pr) = false := h i url pr ho
      by_cases hn : env.publishNeeded
      · have hpf : pr = false := by simpa [hn] using hpr
        right
        simp [loopActs, ho, hn, hpf, statesOf, updsOf, List.filterMap_cons, readyUpd]
      · right
        simp [loopActs, ho, hn, statesOf, updsOf, List.filterMap_cons, readyUpd]

/-- C1 (amended): provided the post-success event publication never raises,
the job's observed states — `pending` at creation, then the worker's writes —
form a prefix of `pending → running → ready` or of
`pending → running → error`, and no write follows a terminal (`ready` or
`error`) write. -/
theorem run_challenge_job_states_monotone (env : WorkerEnv) (h : noPublishFailure env) :
    (("pending" :: writtenStates env) <+: ["pending", "running", "ready"] ∨
     ("pending" :: writtenStates env) <+: ["pending", "running", "error"]) ∧
    (writtenStates env).dropLast.all (fun s => !(s == "ready" || s == "error")) = true := by
  have hW : writtenStates env = [] ∨ writtenStates env = ["running", "error"] ∨
      writtenStates env = ["running", "ready"] := by
    unfold writtenStates workerActs
    by_cases hp : env.jobPresent
    · by_cases hv : env.validRefs
      · have hcons : statesOf (Act.update runningUpd :: loopActs env 1 3) =
            "running" :: statesOf (loopActs env 1 3) := by
          simp [statesOf, updsOf, List.filterMap_cons, runningUpd]
        rcases loopActs_states env h 3 1 with hk | hk
        · right; left; simp [hp, hv, hcons, hk]
        · right; right; simp [hp, hv, hcons, hk]
      · right; left
        simp [hp, hv, statesOf, updsOf, List.filterMap_cons, runningUpd, invalidUpd]
    · left
      simp [hp, statesOf, updsOf]
  rcases hW with hw | hw | hw <;> rw [hw]
  · exact ⟨Or.inl ⟨["running", "ready"], rfl⟩, rfl⟩
  · exact ⟨Or.inr ⟨[], rfl⟩, rfl⟩
  · exact ⟨Or.inl ⟨[], rfl⟩, rfl⟩

/-- Witness for C1: a concrete run (success at attempt 1, no publication
needed) writes `running` then `ready`. -/
theorem run_challenge_job_states_monotone_witness :
    (("pending" :: writtenStates ⟨true, true, false, fun _ => .ok "https://x/" false⟩) <+:
        ["pending", "running", "ready"] ∨
     ("pending" :: writtenStates ⟨true, true, false, fun _ => .ok "https://x/" false⟩) <+:
        ["pending", "running", "error"]) ∧
    (writtenStates ⟨true, true, false, fun _ => .ok "https://x/" false⟩).dropLast.all
      (fun s => !(s == "ready" || s == "error")) = true :=
  run_challenge_job_states_monotone ⟨true, true, false, fun _ => .ok "https://x/" false⟩
    (fun _ _ _ _ => rfl)

/-- The run refuting C1 as stated: attempt 1 starts the container and marks
the job ready, then the event publication raises; attempts 2 and 3 raise. -/
def c1CounterEnv : WorkerEnv :=
  ⟨true, true, true, fun i => if i = 1 then .ok "https://workspace/a" true else .raise⟩

/-- Counterexample to C1 as stated: in `c1CounterEnv` the worker writes
`running, ready, error` — the sequence is a prefix of neither allowed chain,
and the terminal `ready` write is followed by a write that changes the
state to `error`. -/
theorem run_challenge_job_states_monotone_counterexample :
    writtenStates c1CounterEnv = ["running", "ready", "error"] ∧
    ¬ (("pending" :: writtenStates c1CounterEnv) <+: ["pending", "running", "ready"] ∨
       ("pending" :: writtenStates c1CounterEnv) <+: ["pending", "running", "error"]) ∧
    (writtenStates c1CounterEnv).dropLast.all (fun s => !(s == "ready" || s == "error")) = false := by
  have hI : writtenStates c1CounterEnv = ["running", "ready", "error"] := by decide
  refine ⟨hI, ?_, by decide⟩
  rw [hI]
  rintro (⟨t, ht⟩ | ⟨t, ht⟩) <;>
    (have hlen := congrArg List.length ht; simp at hlen)

/-- The failing input for C2: an official dojo (so publication runs), every
attempt provisions successfully and marks the job ready, and every
publication raises.  The worker then retries after each success and finally
overwrites the job with `error`. -/
def c2FailEnv : WorkerEnv :=
  ⟨true, true, true, fun i => .ok ("https://workspace/" ++ toString i) true⟩

/-- C2 (code bug): a failure in the post-success event publication does not
leave the job `ready` — the worker re-enters the retry loop (tearing down
the working container, writing `ready` again with a fresh url) and after the
third publication failure overwrites the job with state `error`, message
`"Workspace failed to start. Please retry."`. -/
theorem publish_failure_changes_job_outcome :
    writtenStates c2FailEnv = ["running", "ready", "ready", "ready", "error"] ∧
    (writtenUpds c2FailEnv).getLast? = some exhaustedUpd ∧
    Act.update (readyUpd "https://workspace/1") ∈ workerActs c2FailEnv ∧
    Act.publish ∈ workerActs c2FailEnv := by decide

/-- A character the corrected hostname claim allows outside the `~`
separator: `[a-z0-9.-]`. -/
def allowedHostChar (c : Char) : Bool := isLowerAlnum c || c = '.' || c = '-'

/-- Helper: every character emitted by `collapseSeps` is either the inserted
`-` or a non-separator character of the input. -/
theorem mem_collapseSeps {c : Char} :
    ∀ {l : List Char}, c ∈ collapseSeps l → c = '-' ∨ (c ∈ l ∧ isSepChar c = false) := by
  intro l
  induction l with
  | nil => intro h; simp [collapseSeps] at h
  | cons a l ih =>
    cases l with
    | nil =>
      intro h
      by_cases ha : isSepChar a
      · simp [collapseSeps, ha] at h
        exact Or.inl h
      · simp [collapseSeps, ha] at h
        subst h
        exact Or.inr ⟨List.mem_singleton_self c, by simpa using ha⟩
    | cons b t =>
      intro h
      by_cases ha : isSepChar a
      · by_cases hb : isSepChar b
        · rw [show collapseSeps (a :: b :: t) = collapseSeps (b :: t) by
            simp [collapseSeps, ha, hb]] at h
          rcases ih h with h1 | ⟨h1, h2⟩
          · exact Or.inl h1
          · exact Or.inr ⟨List.mem_cons_of_mem a h1, h2⟩
        · rw [show collapseSeps (a :: b :: t) = '-' :: collapseSeps (b :: t) by
            simp [collapseSeps, ha, hb]] at h
          rcases List.mem_cons.mp h with h1 | h1
          · exact Or.inl h1
          · rcases ih h1 with h2 | ⟨h2, h3⟩
            · exact Or.inl h2
            · exact Or.inr ⟨List.mem_cons_of_mem a h2, h3⟩
      · rw [show collapseSeps (a :: b :: t) = a :: collapseSeps (b :: t) by
          simp [collapseSeps, ha]] at h
        rcases List.mem_cons.mp h with h1 | h1
        · exact Or.inr ⟨by simp [h1], by simpa [h1] using ha⟩
        · rcases ih h1 with h2 | ⟨h2, h3⟩
          · exact Or.inl h2
          · exact Or.inr ⟨List.mem_cons_of_mem a h2, h3⟩

/-- Helper: when its head is not a separator, `collapseSeps` keeps it. -/
theorem collapseSeps_head {d : Char} (hd : isSepChar d = false) (l : List Char) :
    ∃ t, collapseSeps (d :: l) = d :: t := by
  cases l with
  | nil => exact ⟨[], by simp [collapseSeps, hd]⟩
  | cons e t => exact ⟨collapseSeps (e :: t), by simp [collapseSeps, hd]⟩

/-- Helper: `collapseSeps` never emits two adjacent separator characters. -/
theorem collapseSeps_chain :
    ∀ l : List Char,
      (collapseSeps l).Chain' (fun a b => ¬(isSepChar a = true ∧ isSepChar b = true)) := by
  intro l
  induction l with
  | nil => simp [collapseSeps]
  | cons a l ih =>
    cases l with
    | nil =>
      by_cases ha : isSepChar a <;> simp [collapseSeps, ha]
    | cons b t =>
      by_cases ha : isSepChar a
      · by_cases hb : isSepChar b
        · rw [show collapseSeps (a :: b :: t) = collapseSeps (b :: t) by
            simp [collapseSeps, ha, hb]]
          exact ih
        · rw [show collapseSeps (a :: b :: t) = '-' :: collapseSeps (b :: t) by
            simp [collapseSeps, ha, hb]]
          refine List.chain'_cons'.mpr ⟨?_, ih⟩
          intro y hy
          obtain ⟨t', ht'⟩ := collapseSeps_head (by simpa using hb) t
          rw [ht'] at hy
          simp at hy
          subst hy
          simp [hb]
      · rw [show collapseSeps (a :: b :: t) = a :: collapseSeps (b :: t) by
          simp [collapseSeps, ha]]
        refine List.chain'_cons'.mpr ⟨?_, ih⟩
        intro y hy
        simp [ha]

/-- Helper: a list whose separators are all `-` and never adjacent is a
fixed point of `collapseSeps`. -/
theorem collapseSeps_fixed :
    ∀ l : List Char, (∀ c ∈ l, isSepChar c = true → c = '-') →
      l.Chain' (fun a b => ¬(isSepChar a = true ∧ isSepChar b = true)) →
      collapseSeps l = l := by
  intro l
  induction l with
  | nil => intro _ _; rfl
  | cons a l ih =>
    cases l with
    | nil =>
      intro h1 _
      by_cases ha : isSepChar a
      · have := h1 a (List.mem_singleton_self a) ha
        simp [collapseSeps, ha, this]
      · simp [collapseSeps, ha]
    | cons b t =>
      intro h1 h2
      have hR := (List.chain'_cons.mp h2).1
      have htail := (List.chain'_cons.mp h2).2
      have h1t : ∀ c ∈ b :: t, isSepChar c = true → c = '-' :=
        fun c hc => h1 c (List.mem_cons_of_mem a hc)
      by_cases ha : isSepChar a
      · have hb : isSepChar b = false := by
          by_contra hb
          exact hR ⟨ha, by simpa using hb⟩
        have haDash : a = '-' := h1 a (List.mem_cons_self a _) ha
        rw [show collapseSeps (a :: b :: t) = '-' :: collapseSeps (b :: t) by
          simp [collapseSeps, ha, hb]]
        rw [ih h1t htail, haDash]
      · rw [show collapseSeps (a :: b :: t) = a :: collapseSeps (b :: t) by
          simp [collapseSeps, ha]]
        rw [ih h1t htail]

/-- Helper: the characters of a normalized name are lowercase alphanumerics
or `-`. -/
theorem normalizeName_chars (l : List Char) :
    ∀ c ∈ normalizeName l, isLowerAlnum c = true ∨ c = '-' := by
  intro c hc
  rcases mem_collapseSeps hc with h | ⟨hmem, hsep⟩
  · exact Or.inr h
  · left
    have hfilter := (List.mem_filter.mp hmem).2
    rcases Bool.or_eq_true_iff.mp hfilter with h | h
    · exact h
    · rw [h] at hsep
      cases hsep

/-- Helper: `Char.toLower` fixes lowercase alphanumerics and `-`. -/
theorem toLower_fixed {c : Char} (h : isLowerAlnum c = true ∨ c = '-') :
    c.toLower = c := by
  rcases h with h | h
  · have hn : (97 ≤ c.toNat ∧ c.toNat ≤ 122) ∨ (48 ≤ c.toNat ∧ c.toNat ≤ 57) := by
      simpa [isLowerAlnum, decide_eq_true_eq] using h
    unfold Char.toLower
    rw [if_neg (by omega)]
  · subst h; rfl

/-- Helper: no character is both a lowercase alphanumeric and a
separator. -/
theorem lowerAlnum_not_sep {c : Char} (h1 : isLowerAlnum c = true)
    (h2 : isSepChar c = true) : False := by
  have hb : (97 ≤ c.toNat ∧ c.toNat ≤ 122) ∨ (48 ≤ c.toNat ∧ c.toNat ≤ 57) := by
    simpa [isLowerAlnum, decide_eq_true_eq] using h1
  have hs : c = ' ' ∨ c = '\t' ∨ c = '\n' ∨ c = '\r' ∨ c = '\x0b' ∨ c = '\x0c' ∨
      c = '.' ∨ c = '-' := by
    simpa [isSepChar, isPySpace, decide_eq_true_eq, or_assoc] using h2
  rcases hs with h | h | h | h | h | h | h | h <;> rw [h] at hb <;> revert hb <;> decide

/-- Helper: the name normalization of `start_container` is idempotent. -/
theorem normalizeName_idem (l : List Char) :
    normalizeName (normalizeName l) = normalizeName l := by
  have hmem := normalizeName_chars l
  have hlower : (normalizeName l).map Char.toLower = normalizeName l := by
    rw [List.map_congr_left (fun c hc => toLower_fixed (hmem c hc))]
    exact List.map_id _
  have hstrip : stripBad (normalizeName l) = normalizeName l := by
    apply List.filter_eq_self.mpr
    intro c hc
    rcases hmem c hc with h | h
    · simp [h]
    · simp [h, isSepChar]
  have hfix : collapseSeps (normalizeName l) = normalizeName l := by
    apply collapseSeps_fixed
    · intro c hc hsep
      rcases hmem c hc with h | h
      · exact (lowerAlnum_not_sep h hsep).elim
      · exact h
    · have := collapseSeps_chain (stripBad (l.map Char.toLower))
      simpa [normalizeName] using this
  show collapseSeps (stripBad ((normalizeName l).map Char.toLower)) = normalizeName l
  rw [hlower, hstrip, hfix]

/-- Helper: a member of `"~".join(pieces)` is `~` or a member of a piece. -/
theorem mem_joinTilde {c : Char} :
    ∀ {ps : List (List Char)}, c ∈ joinTilde ps → c = '~' ∨ ∃ p ∈ ps, c ∈ p := by
  intro ps
  induction ps with
  | nil => intro h; simp [joinTilde] at h
  | cons p ps ih =>
    cases ps with
    | nil =>
      intro h
      rw [show joinTilde [p] = p from rfl] at h
      exact Or.inr ⟨p, List.mem_singleton_self p, h⟩
    | cons q r =>
      intro h
      rw [show joinTilde (p :: q :: r) = p ++ '~' :: joinTilde (q :: r) from rfl] at h
      rcases List.mem_append.mp h with h1 | h1
      · exact Or.inr ⟨p, List.mem_cons_self p _, h1⟩
      · rcases List.mem_cons.mp h1 with h2 | h2
        · exact Or.inl h2
        · rcases ih h2 with h3 | ⟨p2, hp2, hcp2⟩
          · exact Or.inl h3
          · exact Or.inr ⟨p2, List.mem_cons_of_mem p hp2, hcp2⟩

/-- Helper: an allowed hostname character is ASCII. -/
theorem allowedHostChar_ascii {c : Char} (h : allowedHostChar c = true) :
    c.toNat < 128 := by
  have : isLowerAlnum c = true ∨ c = '.' ∨ c = '-' := by
    simpa [allowedHostChar, Bool.or_eq_true_iff, decide_eq_true_eq, or_assoc] using h
  rcases this with h1 | h1 | h1
  · have : (97 ≤ c.toNat ∧ c.toNat ≤ 122) ∨ (48 ≤ c.toNat ∧ c.toNat ≤ 57) := by
      simpa [isLowerAlnum, decide_eq_true_eq] using h1
    omega
  · subst h1; decide
  · subst h1; decide

/-- C7 (amended): when the module id consists of characters in `[a-z0-9.-]`,
the hostname — optional `practice` prefix, module id and normalized
challenge name joined by `~`, truncated to 64 — is at most 64 characters
(all ASCII, hence at most 64 bytes), contains only `[a-z0-9.-]` and the `~`
separator, and the challenge-name normalization is idempotent: re-applying
it to the normalized component leaves it unchanged. -/
theorem start_container_hostname_spec (practice : Bool) (moduleId name : List Char)
    (hm : ∀ c ∈ moduleId, allowedHostChar c = true) :
    (hostnameChars practice moduleId name).length ≤ 64 ∧
    (∀ c ∈ hostnameChars practice moduleId name, allowedHostChar c = true ∨ c = '~') ∧
    (∀ c ∈ hostnameChars practice moduleId name, c.toNat < 128) ∧
    normalizeName (normalizeName name) = normalizeName name := by
  have hmem : ∀ c ∈ hostnameChars practice moduleId name,
      allowedHostChar c = true ∨ c = '~' := by
    intro c hc
    have hc2 := List.take_subset 64 _ hc
    rcases mem_joinTilde hc2 with h | ⟨p, hp, hcp⟩
    · exact Or.inr h
    · left
      have hp2 : (practice = true ∧ p = "practice".toList) ∨ p = moduleId ∨ p = normalizeName name := by
        by_cases hpr : practice <;> simp [hpr] at hp <;> tauto
      rcases hp2 with ⟨_, hpp⟩ | hpp | hpp
      · subst hpp
        have hprac : ∀ x ∈ "practice".toList, allowedHostChar x = true := by decide
        exact hprac c hcp
      · subst hpp
        exact hm c hcp
      · subst hpp
        rcases normalizeName_chars name c hcp with h1 | h1
        · simp [allowedHostChar, h1]
        · simp [allowedHostChar, h1]
  refine ⟨?_, hmem, ?_, normalizeName_idem name⟩
  · rw [hostnameChars, List.length_take]
    omega
  · intro c hc
    rcases hmem c hc with h | h
    · exact allowedHostChar_ascii h
    · subst h; decide

/-- Witness for C7: the spec's truncation scenario — module id `mod`, a long
challenge name, no practice prefix. -/
theorem start_container_hostname_spec_witness :
    (hostnameChars false "mod".toList
        "A Very Long Challenge Name With Lots Of Words Beyond The Limit".toList).length ≤ 64 ∧
    (∀ c ∈ hostnameChars false "mod".toList
        "A Very Long Challenge Name With Lots Of Words Beyond The Limit".toList,
      allowedHostChar c = true ∨ c = '~') ∧
    (∀ c ∈ hostnameChars false "mod".toList
        "A Very Long Challenge Name With Lots Of Words Beyond The Limit".toList,
      c.toNat < 128) ∧
    normalizeName (normalizeName
        "A Very Long Challenge Name With Lots Of Words Beyond The Limit".toList) =
      normalizeName "A Very Long Challenge Name With Lots Of Words Beyond The Limit".toList :=
  start_container_hostname_spec false "mod".toList
    "A Very Long Challenge Name With Lots Of Words Beyond The Limit".toList (by decide)

/-- Counterexample to C7 as stated: the code does not normalize the module
id, so with module id `A` the hostname contains `A`, outside `[a-z0-9.-]`
and not the `~` separator. -/
theorem start_container_hostname_counterexample :
    'A' ∈ hostnameChars false "A".toList "name".toList ∧
    ¬ (allowedHostChar 'A' = true ∨ 'A' = '~') := by decide

/-- The hostname of the spec's boundary scenario 1, concretely: 64
characters, truncated mid-word. -/
theorem hostname_example :
    (hostnameChars false "mod".toList
        "A Very Long Challenge Name With Lots Of Words Beyond The Limit".toList).asString =
      "mod~a-very-long-challenge-name-with-lots-of-words-beyond-the-lim" := by decide

end Dojo
